import Mathlib

/-!
Verification development for the HTML/XML-to-Markdown conversion pipeline of
this repository (`Python/blogger_converter.py` and
`Python/tumblr_export_html_to_markdown_converter.py`).

Python strings are modelled as lists of Unicode code points (`List Nat`),
which is exactly Python's own model of `str`.  Each `re.sub` call of the
source is embedded as a left-to-right scanner (`scanSub`) driven by a
matcher function that implements the specific pattern's semantics under
CPython's backtracking regex engine (leftmost match, greedy/lazy
quantifiers, first-success backtracking).  Matchers return the replacement
text and the remaining input after the matched span; a failed match
advances one character, exactly as `re.sub` does.  Every matcher consumes
at least one character of input, so running the scanner with fuel equal to
the input length computes the full substitution.

Character classes (`\w`, `\s`) and `str.lower` are modelled on the
ASCII/Latin-1 range, the character range exercised by the inputs under
consideration; `html.unescape` is modelled for the entity names that occur
in these inputs (`amp`, `lt`, `gt`, `quot`, `apos`, `nbsp`, with the
HTML5 table's with- and without-semicolon forms, longest name first).

Frequently used code points: 10 LF, 32 space, 33 se, 34 dq, 35 hash,
38 amp, 40 lpar, 41 rpar, 42 star, 43 plus, 45 hyphen, 46 dot, 47 slash,
48..57 digits, 58 colon, 59 semi, 60 lt, 61 eq, 62 gt, 91 lbrk, 93 rbrk,
95 underscore, 96 btick, 97..122 lowercase letters, 160 NBSP.
-/

/-- Python string as a list of Unicode code points. -/
abbrev PyStr := List Nat

/-- Code points of a Lean string literal, for readable concrete values. -/
def enc (s : String) : PyStr := s.data.map (fun c => c.toNat)

/-- Tests whether `p` is an initial segment of `l`. -/
def startsW : PyStr → PyStr → Bool
  | [], _ => true
  | _ :: _, [] => false
  | p :: ps, c :: cs => if p = c then startsW ps cs else false

/-- Tests whether `p` occurs as a contiguous substring of `l`
(Python's `in` operator on strings). -/
def hasSub (p : PyStr) : PyStr → Bool
  | [] => startsW p []
  | c :: cs => startsW p (c :: cs) || hasSub p cs

/-- Tests whether `p` is a final segment of `l` (Python's `endswith`). -/
def endsW (p l : PyStr) : Bool := startsW p.reverse l.reverse

/-- Python's `\s` class / `str.strip` whitespace, over the Latin-1 range. -/
def pySpaceB (c : Nat) : Bool :=
  decide (c = 32 ∨ c = 9 ∨ c = 10 ∨ c = 13 ∨ c = 11 ∨ c = 12 ∨
    (28 ≤ c ∧ c ≤ 31) ∨ c = 133 ∨ c = 160)

/-- Python's `\w` class: the ASCII word characters, plus the non-ASCII
letters exercised by this development — here U+0130 (304, LATIN CAPITAL
LETTER I WITH DOT ABOVE), which is alphanumeric and hence `\w` in Python.
Combining marks such as U+0307 (775, COMBINING DOT ABOVE) are not
alphanumeric and hence not `\w`, as in Python. -/
def pyWordB (c : Nat) : Bool :=
  decide ((97 ≤ c ∧ c ≤ 122) ∨ (65 ≤ c ∧ c ≤ 90) ∨ (48 ≤ c ∧ c ≤ 57) ∨ c = 95 ∨ c = 304)

/-- Single-character ASCII lowercase mapping: A-Z to a-z, everything else
unchanged.  Used as one branch of the per-character mapping `pyLowerC`. -/
def pyLower (c : Nat) : Nat := if 65 ≤ c ∧ c ≤ 90 then c + 32 else c

/-- Python's `str.lower` maps each character to its full Unicode lowercase
mapping, which can be more than one code point: U+0130 maps to `i`
followed by U+0307 (COMBINING DOT ABOVE) — the one expanding lowercase
mapping of SpecialCasing.txt that CPython applies.  Modelled for the ASCII
range plus U+0130; other cased non-ASCII letters are outside the modelled
character range. -/
def pyLowerC (c : Nat) : PyStr := if c = 304 then [105, 775] else [pyLower c]

/-- Python's `str.lower` on a whole string: the concatenation of the
per-character lowercase mappings. -/
def pyLowerS : PyStr → PyStr
  | [] => []
  | c :: cs => pyLowerC c ++ pyLowerS cs

/-- Python's `str.strip()`: drop leading and trailing whitespace. -/
def pyStripL (l : PyStr) : PyStr :=
  ((l.dropWhile pySpaceB).reverse.dropWhile pySpaceB).reverse

/-- Python's `str.strip('-')`: drop leading and trailing hyphens. -/
def pyStripHy (l : PyStr) : PyStr :=
  ((l.dropWhile (· == 45)).reverse.dropWhile (· == 45)).reverse

/-- Decimal digits of a natural number (Python's `str(int)`). -/
def natDigits (n : Nat) : PyStr := (Nat.repr n).data.map (fun c => c.toNat)

/-- Zero-padded two-digit field, as `strftime` prints with `%m` / `%d`. -/
def pad2 (n : Nat) : PyStr := if n < 10 then [48, 48 + n] else natDigits n

/-- Fuelled engine for `re.sub`: at each position try the matcher; on a match
emit the replacement and continue after the matched span, otherwise emit the
current character and move on by one.  Every matcher used below consumes at
least one character on success, so fuel equal to the input length (`runSub`)
never runs out before the input does. -/
def scanSub (m : PyStr → Option (PyStr × PyStr)) : Nat → PyStr → PyStr
  | _, [] => []
  | 0, l => l
  | f + 1, c :: cs =>
    match m (c :: cs) with
    | some (r, rest) => r ++ scanSub m f rest
    | none => c :: scanSub m f cs

/-- Runs one `re.sub` pass over the whole input. -/
def runSub (m : PyStr → Option (PyStr × PyStr)) (l : PyStr) : PyStr :=
  scanSub m l.length l

/-- Lazy search: the earliest position where `test` succeeds splits the input
into the text before it and the remainder the test returns.  This is the
semantics of a lazy `(.*?)` group followed by a closing pattern. -/
def splitUntilM (test : PyStr → Option PyStr) : PyStr → Option (PyStr × PyStr)
  | [] => none
  | c :: cs =>
    match test (c :: cs) with
    | some r => some ([], r)
    | none =>
      match splitUntilM test cs with
      | some (pre, rest) => some (c :: pre, rest)
      | none => none

/-- Literal closing pattern for `splitUntilM`. -/
def litTest (lit : PyStr) (l : PyStr) : Option PyStr :=
  if startsW lit l then some (l.drop lit.length) else none

/-- First success of `f` over a list of candidates (backtracking order). -/
def firstSome (f : α → Option β) : List α → Option β
  | [] => none
  | a :: as =>
    match f a with
    | some b => some b
    | none => firstSome f as

/-- Remainders after each occurrence of `lit`, scanning only while the
current character is not `>` (so every character before the occurrence can
be consumed by a `[^>]` repetition). -/
def occsAux (lit : PyStr) : PyStr → List PyStr
  | [] => []
  | c :: cs =>
    (if startsW lit (c :: cs) then [(c :: cs).drop lit.length] else []) ++
      (if c = 62 then [] else occsAux lit cs)

/-- Occurrences of `lit` reachable after a nonempty `[^>]+`: the first
character must be consumable (not `>`), and occurrences start from
position one onward. -/
def occsIn (lit : PyStr) : PyStr → List PyStr
  | [] => []
  | c :: cs => if c = 62 then [] else occsAux lit cs

/-!  Matchers for the `re.sub` passes of `blogger_converter.html_to_markdown`,
in source order. -/

/-- Entity decoding step of `html.unescape`, at a `&`, for the entity names
occurring in the modelled inputs.  Longest name first, with- and
without-semicolon forms as in the HTML5 entity table (`apos` requires the
semicolon).  Note `nbsp` decodes to U+00A0, not to an ASCII space. -/
def entName : PyStr → Option (PyStr × PyStr)
  | 110 :: 98 :: 115 :: 112 :: 59 :: r => some ([160], r)
  | 110 :: 98 :: 115 :: 112 :: r => some ([160], r)
  | 113 :: 117 :: 111 :: 116 :: 59 :: r => some ([34], r)
  | 113 :: 117 :: 111 :: 116 :: r => some ([34], r)
  | 97 :: 112 :: 111 :: 115 :: 59 :: r => some ([39], r)
  | 97 :: 109 :: 112 :: 59 :: r => some ([38], r)
  | 97 :: 109 :: 112 :: r => some ([38], r)
  | 108 :: 116 :: 59 :: r => some ([60], r)
  | 108 :: 116 :: r => some ([60], r)
  | 103 :: 116 :: 59 :: r => some ([62], r)
  | 103 :: 116 :: r => some ([62], r)
  | _ => none

/-- Matcher embedding `html.unescape` (restricted as described above). -/
def entMatch : PyStr → Option (PyStr × PyStr)
  | 38 :: rest => entName rest
  | _ => none

/-- Continuation of the image pattern after `src="`: capture `([^"]+)`, the
closing quote, then the greedy `[^>]*` runs to the first `>`.  The optional
`(?:alt="([^"]*)")?` group can never participate in a successful match:
the greedy `[^>]*` before it always consumes up to the `>` (or the end),
and the engine only backtracks on failure, which here only happens when no
`>` follows at all — in which case every alternative fails too.  Hence the
replacement lambda `![{m.group(2) or ""}]({m.group(1)})` always sees
`group(2) = None` and emits an empty alt text. -/
def imgCont (u : PyStr) : Option (PyStr × PyStr) :=
  let g1 := u.takeWhile (· != 34)
  if g1.isEmpty then none
  else
    match u.drop g1.length with
    | 34 :: v =>
      match v.dropWhile (· != 62) with
      | 62 :: rest => some ([33, 91, 93, 40] ++ g1 ++ [41], rest)
      | _ => none
    | _ => none

/-- Matcher for `<img[^>]+src="([^"]+)"[^>]*(?:alt="([^"]*)")?[^>]*>`:
after the literal `<img`, the greedy `[^>]+` backtracks from the longest
extent, so the engine tries the occurrences of `src="` from the last one
backwards and commits to the first that lets the rest of the pattern
match. -/
def imgMatch : PyStr → Option (PyStr × PyStr)
  | 60 :: 105 :: 109 :: 103 :: t =>
    firstSome imgCont (occsIn [115, 114, 99, 61, 34] t).reverse
  | _ => none

/-- Continuation of the anchor pattern after `href="`: capture `([^"]+)`,
closing quote, greedy `[^>]*` to the first `>`, then the lazy `(.*?)` up to
the earliest literal `</a>`.  Replacement `[\2](\1)`. -/
def linkCont (u : PyStr) : Option (PyStr × PyStr) :=
  let g1 := u.takeWhile (· != 34)
  if g1.isEmpty then none
  else
    match u.drop g1.length with
    | 34 :: v =>
      match v.dropWhile (· != 62) with
      | 62 :: r =>
        match splitUntilM (litTest [60, 47, 97, 62]) r with
        | some (g2, rest) => some ([91] ++ g2 ++ [93, 40] ++ g1 ++ [41], rest)
        | none => none
      | _ => none
    | _ => none

/-- Matcher for `<a[^>]+href="([^"]+)"[^>]*>(.*?)</a>` (DOTALL). -/
def linkMatch : PyStr → Option (PyStr × PyStr)
  | 60 :: 97 :: t =>
    firstSome linkCont (occsIn [104, 114, 101, 102, 61, 34] t).reverse
  | _ => none

/-- Closing-tag test for `</h[1-6]>`. -/
def closeHTest : PyStr → Option PyStr
  | 60 :: 47 :: 104 :: d :: 62 :: r => if 49 ≤ d ∧ d ≤ 54 then some r else none
  | _ => none

/-- Matcher for `<h([1-6])[^>]*>(.*?)</h[1-6]>` (DOTALL); replacement is
`'#' * n + ' ' + inner` with the inner text not further converted by this
pass. -/
def hMatch : PyStr → Option (PyStr × PyStr)
  | 60 :: 104 :: d :: t =>
    if 49 ≤ d ∧ d ≤ 54 then
      match t.dropWhile (· != 62) with
      | 62 :: r =>
        match splitUntilM closeHTest r with
        | some (inner, rest) =>
          some (List.replicate (d - 48) 35 ++ [32] ++ inner, rest)
        | none => none
      | _ => none
    else none
  | _ => none

/-- Matcher for an opening tag `openL[^>]*>`, a lazy DOTALL body up to the
earliest literal `closeL`, with replacement `wrap inner`.  Embeds the
`<p>`, `<strong>`, `<b>`, `<em>`, `<i>`, `<ul>`, `<ol>`, `<blockquote>`
and `<code>` substitutions of the source. -/
def tagPairMatch (openL closeL : PyStr) (wrap : PyStr → PyStr) (l : PyStr) :
    Option (PyStr × PyStr) :=
  if startsW openL l then
    match (l.drop openL.length).dropWhile (· != 62) with
    | 62 :: r =>
      match splitUntilM (litTest closeL) r with
      | some (inner, rest) => some (wrap inner, rest)
      | none => none
    | _ => none
  else none

/-- Matcher for `<br\s*/?>`. -/
def brMatch : PyStr → Option (PyStr × PyStr)
  | 60 :: 98 :: 114 :: t =>
    match t.dropWhile pySpaceB with
    | 47 :: 62 :: rest => some ([10], rest)
    | 62 :: rest => some ([10], rest)
    | _ => none
  | _ => none

/-- Matcher for the generic tag-stripping pass `<[^>]+>` (replacement
empty): at a `<`, at least one non-`>` character, up to the first `>`. -/
def tagMatch : PyStr → Option (PyStr × PyStr)
  | 60 :: c :: cs =>
    if c = 62 then none
    else
      match (c :: cs).dropWhile (· != 62) with
      | 62 :: r => some ([], r)
      | _ => none
  | _ => none

/-- Matcher at `<li` for one `findall` item of `<li[^>]*>(.*?)</li>`
(DOTALL, lazy): returns the captured group and the remainder. -/
def liMatchAt : PyStr → Option (PyStr × PyStr)
  | 60 :: 108 :: 105 :: t =>
    match t.dropWhile (· != 62) with
    | 62 :: r => splitUntilM (litTest [60, 47, 108, 105, 62]) r
    | _ => none
  | _ => none

/-- Fuelled scanner for `re.findall(r'<li[^>]*>(.*?)</li>', ..., DOTALL)`:
collect successive non-overlapping matches left to right. -/
def liScan : Nat → PyStr → List PyStr
  | _, [] => []
  | 0, _ => []
  | f + 1, c :: cs =>
    match liMatchAt (c :: cs) with
    | some (item, rest) => item :: liScan f rest
    | none => liScan f cs

/-- All `<li>` item bodies of a list element, in order. -/
def liFindAll (l : PyStr) : List PyStr := liScan l.length l

/-- Loop body of `convert_list`: `enumerate(items)` with the inner tags of
each item stripped (`re.sub(r'<[^>]+>', '', item)`) and the item
whitespace-stripped, then prefixed `- ` for `ul` or `{i+1}. ` for `ol`. -/
def convertItems (listType : PyStr) : Nat → List PyStr → List PyStr
  | _, [] => []
  | i, item :: rest =>
    (if listType = [117, 108]
      then [45, 32] ++ pyStripL (runSub tagMatch item)
      else natDigits (i + 1) ++ [46, 32] ++ pyStripL (runSub tagMatch item))
    :: convertItems listType (i + 1) rest

/-- Embeds `convert_list(list_content, list_type)` of the source:
newline, the items joined by newlines, newline. -/
def convert_list (listContent listType : PyStr) : PyStr :=
  [10] ++ List.intercalate [10] (convertItems listType 0 (liFindAll listContent)) ++ [10]

/-- Replacement helper of the blockquote pass:
`inner.strip().replace('\n', '\n> ')`. -/
def nlQuote : PyStr → PyStr
  | [] => []
  | 10 :: r => 10 :: 62 :: 32 :: nlQuote r
  | c :: r => c :: nlQuote r

/-- Matcher for `<pre[^>]*><code[^>]*>(.*?)</code></pre>` (DOTALL);
replacement is a fenced code block. -/
def preCodeMatch (l : PyStr) : Option (PyStr × PyStr) :=
  if startsW [60, 112, 114, 101] l then
    match (l.drop 4).dropWhile (· != 62) with
    | 62 :: r =>
      if startsW [60, 99, 111, 100, 101] r then
        match (r.drop 5).dropWhile (· != 62) with
        | 62 :: r2 =>
          match splitUntilM (litTest [60, 47, 99, 111, 100, 101, 62, 60, 47, 112, 114, 101, 62]) r2 with
          | some (inner, rest) =>
            some ([96, 96, 96, 10] ++ inner ++ [10, 96, 96, 96], rest)
          | none => none
        | _ => none
      else none
    | _ => none
  else none

/-- Matcher for the whitespace-collapsing pass `\n\s*\n\s*\n` → `"\n\n"`:
at a newline, the pattern matches exactly when the maximal whitespace run
holds at least two further newlines, and the greedy `\s*` groups extend
the match to the last newline of that run. -/
def wsMatch : PyStr → Option (PyStr × PyStr)
  | 10 :: rest =>
    let run := rest.takeWhile pySpaceB
    if 2 ≤ (run.filter (· == 10)).length then
      some ([10, 10], rest.drop (run.length - (run.reverse.takeWhile (· != 10)).length))
    else none
  | _ => none

/-- Matcher for the literal `&nbsp;` → `' '` pass (which runs after entity
decoding, so it only sees text that still reads `&nbsp;` at that point). -/
def nbspMatch : PyStr → Option (PyStr × PyStr)
  | 38 :: 110 :: 98 :: 115 :: 112 :: 59 :: r => some ([32], r)
  | _ => none

/-- Embeds `blogger_converter.html_to_markdown`: the `re.sub` cascade in
source order, ending with `str.strip()`.  An empty (falsy) input returns
the empty string immediately. -/
def html_to_markdown (l : PyStr) : PyStr :=
  if l = [] then []
  else
    let c1 := runSub entMatch l
    let c2 := runSub imgMatch c1
    let c3 := runSub linkMatch c2
    let c4 := runSub hMatch c3
    let c5 := runSub (tagPairMatch [60, 112] [60, 47, 112, 62] (fun i => i ++ [10, 10])) c4
    let c6 := runSub brMatch c5
    let c7 := runSub (tagPairMatch [60, 115, 116, 114, 111, 110, 103]
      [60, 47, 115, 116, 114, 111, 110, 103, 62] (fun i => [42, 42] ++ i ++ [42, 42])) c6
    let c8 := runSub (tagPairMatch [60, 98] [60, 47, 98, 62] (fun i => [42, 42] ++ i ++ [42, 42])) c7
    let c9 := runSub (tagPairMatch [60, 101, 109] [60, 47, 101, 109, 62] (fun i => [42] ++ i ++ [42])) c8
    let c10 := runSub (tagPairMatch [60, 105] [60, 47, 105, 62] (fun i => [42] ++ i ++ [42])) c9
    let c11 := runSub (tagPairMatch [60, 117, 108] [60, 47, 117, 108, 62]
      (fun i => convert_list i [117, 108])) c10
    let c12 := runSub (tagPairMatch [60, 111, 108] [60, 47, 111, 108, 62]
      (fun i => convert_list i [111, 108])) c11
    let c13 := runSub (tagPairMatch [60, 98, 108, 111, 99, 107, 113, 117, 111, 116, 101]
      [60, 47, 98, 108, 111, 99, 107, 113, 117, 111, 116, 101, 62]
      (fun i => [62, 32] ++ nlQuote (pyStripL i))) c12
    let c14 := runSub preCodeMatch c13
    let c15 := runSub (tagPairMatch [60, 99, 111, 100, 101] [60, 47, 99, 111, 100, 101, 62]
      (fun i => [96] ++ i ++ [96])) c14
    let c16 := runSub tagMatch c15
    let c17 := runSub wsMatch c16
    let c18 := runSub nbspMatch c17
    pyStripL c18

/-- Hyphen-or-whitespace class of the pattern `[-\s]+`. -/
def hsB (c : Nat) : Bool := c == 45 || pySpaceB c

/-- Matcher for `[-\s]+` → `"-"`: a maximal hyphen/whitespace run collapses
to one hyphen. -/
def hyphMatch : PyStr → Option (PyStr × PyStr)
  | [] => none
  | c :: cs => if hsB c then some ([45], cs.dropWhile hsB) else none

/-- Embeds `clean_filename`: strip tags, delete characters outside
`[\w\s-]`, collapse `[-\s]+` runs to single hyphens, strip edge hyphens,
lowercase. -/
def clean_filename (l : PyStr) : PyStr :=
  let t1 := runSub tagMatch l
  let t2 := t1.filter (fun c => pyWordB c || pySpaceB c || c == 45)
  let t3 := runSub hyphMatch t2
  pyLowerS (pyStripHy t3)

/-- Embeds `str.replace('Z', '+00:00')`. -/
def pyReplaceZ (l : PyStr) : PyStr :=
  l.foldr (fun c acc => if c = 90 then [43, 48, 48, 58, 48, 48] ++ acc else c :: acc) []

/-- Two ASCII digits as a number, with the remaining input. -/
def parse2 : PyStr → Option (Nat × PyStr)
  | a :: b :: r =>
    if 48 ≤ a ∧ a ≤ 57 ∧ 48 ≤ b ∧ b ≤ 57
      then some ((a - 48) * 10 + (b - 48), r) else none
  | _ => none

/-- Four ASCII digits as a number, with the remaining input. -/
def parse4 (l : PyStr) : Option (Nat × PyStr) :=
  match parse2 l with
  | some (hi, r) =>
    match parse2 r with
    | some (lo, r2) => some (hi * 100 + lo, r2)
    | none => none
  | none => none

/-- ASCII digit test. -/
def isDigitB (c : Nat) : Bool := decide (48 ≤ c ∧ c ≤ 57)

/-- At least one fractional digit; returns the remaining input. -/
def parseFracRest (l : PyStr) : Option PyStr :=
  let ds := l.takeWhile isDigitB
  if 1 ≤ ds.length then some (l.drop ds.length) else none

/-- UTC-offset suffix `±HH[:MM[:SS[.f+]]]` or nothing, consuming the rest
of the input. -/
def parseOffset : PyStr → Option Unit
  | [] => some ()
  | s :: r =>
    if s = 43 ∨ s = 45 then
      match parse2 r with
      | some (oh, r2) =>
        if oh ≤ 23 then
          match r2 with
          | [] => some ()
          | 58 :: r3 =>
            match parse2 r3 with
            | some (om, r4) =>
              if om ≤ 59 then
                match r4 with
                | [] => some ()
                | 58 :: r5 =>
                  match parse2 r5 with
                  | some (os, r6) =>
                    if os ≤ 59 then
                      match r6 with
                      | [] => some ()
                      | 46 :: r7 =>
                        match parseFracRest r7 with
                        | some [] => some ()
                        | _ => none
                      | _ => none
                    else none
                  | none => none
                | _ => none
              else none
            | none => none
          | _ => none
        else none
      | none => none
    else none

/-- Time-of-day and offset part `HH[:MM[:SS[.f+]]][offset]`, consuming the
rest of the input. -/
def parseTimeOff (l : PyStr) : Option Unit :=
  match parse2 l with
  | some (h, r) =>
    if h ≤ 23 then
      match r with
      | 58 :: r2 =>
        match parse2 r2 with
        | some (mi, r3) =>
          if mi ≤ 59 then
            match r3 with
            | 58 :: r4 =>
              match parse2 r4 with
              | some (s, r5) =>
                if s ≤ 59 then
                  match r5 with
                  | 46 :: r6 =>
                    match parseFracRest r6 with
                    | some r7 => parseOffset r7
                    | none => none
                  | _ => parseOffset r5
                else none
              | none => none
            | _ => parseOffset r3
          else none
        | none => none
      | _ => parseOffset r
    else none
  | none => none

/-- Leap-year rule of the proleptic Gregorian calendar. -/
def isLeap (y : Nat) : Bool := decide ((y % 4 = 0 ∧ y % 100 ≠ 0) ∨ y % 400 = 0)

/-- Days in a month. -/
def daysInMonth (y m : Nat) : Nat :=
  if m = 2 then (if isLeap y then 29 else 28)
  else if m = 4 ∨ m = 6 ∨ m = 9 ∨ m = 11 then 30 else 31

/-- Models `datetime.fromisoformat` (CPython 3.11+) on the common ISO-8601
shapes `YYYY-MM-DD[{T, t, space}HH[:MM[:SS[.f+]]][±HH[:MM[:SS]]]]`,
returning the calendar date on success. -/
def isoParse (l : PyStr) : Option (Nat × Nat × Nat) :=
  match parse4 l with
  | some (y, 45 :: r1) =>
    match parse2 r1 with
    | some (m, 45 :: r2) =>
      match parse2 r2 with
      | some (d, rest) =>
        if 1 ≤ y ∧ 1 ≤ m ∧ m ≤ 12 ∧ 1 ≤ d ∧ d ≤ daysInMonth y m then
          match rest with
          | [] => some (y, m, d)
          | sep :: tr =>
            if sep = 84 ∨ sep = 116 ∨ sep = 32 then
              match parseTimeOff tr with
              | some () => some (y, m, d)
              | none => none
            else none
        else none
      | _ => none
    | _ => none
  | _ => none

/-- Embeds `format_date`: replace `Z` by `+00:00`, parse with
`fromisoformat` and print `%Y-%m-%d` on success; on any parse failure the
`except` clause returns the original string unchanged. -/
def format_date (ds : PyStr) : PyStr :=
  match isoParse (pyReplaceZ ds) with
  | some (y, m, d) => natDigits y ++ [45] ++ pad2 m ++ [45] ++ pad2 d
  | none => ds

/-- One Atom entry of the feed export, as seen through the element lookups
of `extract_blog_entries`: the `term` of the kind-category child if that
element is present (an absent `term` attribute reads as the empty string),
the text of `app:control/app:draft` if present, the text of
`title[@type="text"]` if present with text, the text of `published` if the
element is present, and for `content[@type="html"]` the presence of the
element together with its optional text. -/
structure BlogEntry where
  categoryTerm : Option PyStr
  draftText : Option PyStr
  title : Option PyStr
  published : Option PyStr
  content : Option (Option PyStr)

/-- Settings-entry test: `category is not None and 'settings' in
category.get('term', '')`. -/
def isSettingsB (e : BlogEntry) : Bool :=
  match e.categoryTerm with
  | some t => hasSub (enc ("settings")) t
  | none => false

/-- One iteration of the `extract_blog_entries` loop: `none` when the entry
is skipped (settings entry, no `published` element, no html `content`
element), otherwise the written file as a pair of filename and content. -/
def processEntry (e : BlogEntry) : Option (PyStr × PyStr) :=
  if isSettingsB e then none
  else
    let isDraft := e.draftText = some (enc ("yes"))
    let title := e.title.getD (enc ("Untitled"))
    match e.published with
    | none => none
    | some pub =>
      let publishedDate := format_date pub
      match e.content with
      | none => none
      | some inner =>
        let markdownContent := html_to_markdown (inner.getD [])
        let safeTitle := clean_filename title
        let draftPfx : PyStr := if isDraft then enc ("draft-") else []
        let filename := draftPfx ++ publishedDate ++ [45] ++ safeTitle ++ enc (".md")
        let body := enc ("# ") ++ title ++ [10, 10] ++ enc ("**Date:** ") ++ publishedDate ++ [10]
          ++ (if isDraft then enc ("**Status:** Draft") ++ [10] else [])
          ++ [10] ++ markdownContent ++ [10]
        some (filename, body)

/-- Embeds the whole `extract_blog_entries` run over an already-parsed list
of entries: the sequence of files written, in iteration order. -/
def extract_blog_entries (es : List BlogEntry) : List (PyStr × PyStr) :=
  es.filterMap processEntry

/-- The `entries_processed` counter of the loop. -/
def entriesProcessedCount (es : List BlogEntry) : Nat :=
  es.foldl (fun n e => match processEntry e with | some _ => n + 1 | none => n) 0

/-- The final summary line `print(f"\nProcessed {entries_processed} blog
entries.")`. -/
def summaryLine (es : List BlogEntry) : PyStr :=
  [10] ++ enc ("Processed ") ++ natDigits (entriesProcessedCount es) ++ enc (" blog entries.")

/-- Filesystem model for a run: each `open(filepath, 'w')` truncates and
overwrites, so the final content of a name is the last write with that
name, if any. -/
def finalFile (writes : List (PyStr × PyStr)) (name : PyStr) : Option PyStr :=
  writes.foldl (fun acc w => if w.1 = name then some w.2 else acc) none

/-- Lines of a file content, split at newlines (for stating that an output
file contains a given line). -/
def splitNl : PyStr → List PyStr
  | [] => [[]]
  | 10 :: rest => [] :: splitNl rest
  | c :: rest =>
    match splitNl rest with
    | [] => [[c]]
    | line :: ls => (c :: line) :: ls

/-!  Embedding of `tumblr_export_html_to_markdown_converter.convert_image_paths`. -/

/-- Embeds `os.path.basename` on POSIX: the part after the last slash. -/
def basenameL (p : PyStr) : PyStr := (p.reverse.takeWhile (· != 47)).reverse

/-- The `original_path.lower().endswith(ext)` test over the recognized
image extensions. -/
def isImagePathB (p : PyStr) : Bool :=
  let lp := pyLowerS p
  endsW (enc (".jpg")) lp || endsW (enc (".jpeg")) lp || endsW (enc (".png")) lp ||
  endsW (enc (".gif")) lp || endsW (enc (".bmp")) lp || endsW (enc (".webp")) lp ||
  endsW (enc (".svg")) lp

/-- Matcher for the first pass `!\[([^\]]*)\]\(([^)]+)\)`: rewrite a
Markdown image reference to the `tumblrmedia/` basename path. -/
def mdImgMatch : PyStr → Option (PyStr × PyStr)
  | 33 :: 91 :: t =>
    let g1 := t.takeWhile (· != 93)
    (match t.drop g1.length with
    | 93 :: 40 :: u =>
      let g2 := u.takeWhile (· != 41)
      if g2.isEmpty then none
      else
        match u.drop g2.length with
        | 41 :: rest =>
          some ([33, 91] ++ g1 ++ [93, 40] ++ enc ("tumblrmedia/") ++ basenameL g2 ++ [41], rest)
        | _ => none
    | _ => none)
  | _ => none

/-- Matcher for the second pass `\[([^\]]*)\]\(([^)]+)\)`: a link whose
target has a recognized image extension is promoted to an embedded image
pointing at `tumblrmedia/`; any other link is reproduced unchanged. -/
def linkImgMatch : PyStr → Option (PyStr × PyStr)
  | 91 :: t =>
    let g1 := t.takeWhile (· != 93)
    (match t.drop g1.length with
    | 93 :: 40 :: u =>
      let g2 := u.takeWhile (· != 41)
      if g2.isEmpty then none
      else
        match u.drop g2.length with
        | 41 :: rest =>
          if isImagePathB g2 then
            some ([33, 91] ++ g1 ++ [93, 40] ++ enc ("tumblrmedia/") ++ basenameL g2 ++ [41], rest)
          else
            some ([91] ++ g1 ++ [93, 40] ++ g2 ++ [41], rest)
        | _ => none
    | _ => none)
  | _ => none

/-- Embeds `convert_image_paths`: the image-reference pass followed by the
link pass, in source order. -/
def convert_image_paths (l : PyStr) : PyStr :=
  runSub linkImgMatch (runSub mdImgMatch l)

/-!  Concrete fixtures used by the claim theorems. -/

/-- Feed entry of the end-to-end scenario: an ordinary post with title
`Hello World`, the given published timestamp and HTML content. -/
def helloEntry : BlogEntry :=
  ⟨some (enc ("http://schemas.google.com/blogger/2008/kind#post")), none,
    some (enc ("Hello World")), some (enc ("2024-12-18T19:26:00.000-08:00")),
    some (some (enc ("<p>Hi <b>there</b></p>")))⟩

/-- Expected content of the file written for `helloEntry`. -/
def helloBody : PyStr := enc ("# Hello World\n\n**Date:** 2024-12-18\n\nHi **there**\n")

/-- Entry whose published date is present but unparseable. -/
def badDateEntry : BlogEntry :=
  ⟨none, none, some (enc ("T")), some (enc ("not-a-date")), some (some (enc ("x")))⟩

/-- Entry with no `published` element at all. -/
def noDateEntry : BlogEntry :=
  ⟨none, none, some (enc ("U")), none, some (some (enc ("y")))⟩

/-- First of two entries that synthesize the same filename. -/
def dupEntryA : BlogEntry :=
  ⟨none, none, some (enc ("Same")), some (enc ("2024-01-02")), some (some (enc ("one")))⟩

/-- Second of two entries that synthesize the same filename, with different
content. -/
def dupEntryB : BlogEntry :=
  ⟨none, none, some (enc ("Same")), some (enc ("2024-01-02")), some (some (enc ("two")))⟩

/-- A list element body consisting of the given `<li>` items in order:
`<li>` then the item then `</li>`, repeated. -/
def mkLiBody : List PyStr → PyStr
  | [] => []
  | it :: rest => 60 :: 108 :: 105 :: 62 :: (it ++ 60 :: ([47, 108, 105, 62] ++ mkLiBody rest))

/-- Adjacent characters are not both hyphens. -/
def noHH (a b : Nat) : Prop := ¬(a = 45 ∧ b = 45)

/-- Sanitized form of a filename fragment: only lowercase-stable word
characters and hyphens, no two adjacent hyphens, and no hyphen at either
end.  This is an invariant of `clean_filename`'s output and characterizes
its fixed points. -/
def Sanitized (l : PyStr) : Prop :=
  (∀ c ∈ l, (pyWordB c = true ∧ pyLowerC c = [c]) ∨ c = 45) ∧
  List.Chain' noHH l ∧
  (∀ c, l.head? = some c → c ≠ 45) ∧
  (∀ c, l.getLast? = some c → c ≠ 45)

/-!  Generic lemmas about the substitution engine. -/

/-- A pass whose matcher only fires at a trigger character leaves a string
without that character unchanged, for any amount of fuel. -/
theorem scanSub_id (m : PyStr → Option (PyStr × PyStr)) (t : Nat)
    (hm : ∀ c cs, c ≠ t → m (c :: cs) = none) :
    ∀ (f : Nat) (l : PyStr), (∀ c ∈ l, c ≠ t) → scanSub m f l = l := by
  intro f
  induction f with
  | zero => intro l _; cases l <;> simp [scanSub]
  | succ f ih =>
    intro l hl
    cases l with
    | nil => simp [scanSub]
    | cons c cs =>
      have h1 : m (c :: cs) = none := hm c cs (hl c (List.mem_cons_self c cs))
      simp [scanSub, h1, ih cs (fun x hx => hl x (List.mem_cons_of_mem c hx))]

/-- A trigger-free prefix passes through a substitution pass unchanged,
consuming one unit of fuel per character. -/
theorem scanSub_append (m : PyStr → Option (PyStr × PyStr)) (t : Nat)
    (hm : ∀ c cs, c ≠ t → m (c :: cs) = none) :
    ∀ (p : PyStr), (∀ c ∈ p, c ≠ t) → ∀ (f : Nat) (r : PyStr),
      scanSub m f (p ++ r) = p ++ scanSub m (f - p.length) r := by
  intro p
  induction p with
  | nil => intro _ f r; simp
  | cons c ps ih =>
    intro hp f r
    cases f with
    | zero =>
      simp only [List.cons_append, scanSub]
      cases r <;> simp [scanSub]
    | succ f =>
      have h1 : m (c :: (ps ++ r)) = none :=
        hm _ _ (hp c (List.mem_cons_self c ps))
      have ih' := ih (fun x hx => hp x (List.mem_cons_of_mem c hx)) f r
      simp [scanSub, h1, ih', Nat.succ_sub_succ]

/-- Unfolding helper for `runSub`. -/
theorem runSub_eq (m : PyStr → Option (PyStr × PyStr)) (l : PyStr) :
    runSub m l = scanSub m l.length l := rfl

/-- One step of the engine on a successful match. -/
theorem scanSub_cons_some (m : PyStr → Option (PyStr × PyStr)) (f : Nat)
    (c : Nat) (cs rep rest : PyStr) (h : m (c :: cs) = some (rep, rest)) :
    scanSub m (Nat.succ f) (c :: cs) = rep ++ scanSub m f rest := by
  simp [scanSub, h]

/-- Head-mismatch failure of `startsW`. -/
theorem startsW_cons_false (p c : Nat) (ps cs : PyStr) (h : p ≠ c) :
    startsW (p :: ps) (c :: cs) = false := by
  simp [startsW, h]

/-- The literal `lit` starts every string of the form `lit ++ r`, with the
remainder `r`. -/
theorem startsW_self_append (lit r : PyStr) : startsW lit (lit ++ r) = true := by
  induction lit with
  | nil => simp [startsW]
  | cons p ps ih => simp [startsW, ih]

/-!  Per-matcher facts: each matcher only fires at its trigger character. -/

theorem entMatch_none (c : Nat) (cs : PyStr) (h : c ≠ 38) :
    entMatch (c :: cs) = none := by
  unfold entMatch
  split
  · rename_i heq
    injection heq with h1 _
    exact absurd h1 h
  · rfl

theorem imgMatch_none (c : Nat) (cs : PyStr) (h : c ≠ 60) :
    imgMatch (c :: cs) = none := by
  unfold imgMatch
  split
  · rename_i heq
    injection heq with h1 _
    exact absurd h1 h
  · rfl

theorem linkMatch_none (c : Nat) (cs : PyStr) (h : c ≠ 60) :
    linkMatch (c :: cs) = none := by
  unfold linkMatch
  split
  · rename_i heq
    injection heq with h1 _
    exact absurd h1 h
  · rfl

theorem hMatch_none (c : Nat) (cs : PyStr) (h : c ≠ 60) :
    hMatch (c :: cs) = none := by
  unfold hMatch
  split
  · rename_i heq
    injection heq with h1 _
    exact absurd h1 h
  · rfl

theorem brMatch_none (c : Nat) (cs : PyStr) (h : c ≠ 60) :
    brMatch (c :: cs) = none := by
  unfold brMatch
  split
  · rename_i heq
    injection heq with h1 _
    exact absurd h1 h
  · rfl

theorem tagMatch_none (c : Nat) (cs : PyStr) (h : c ≠ 60) :
    tagMatch (c :: cs) = none := by
  unfold tagMatch
  split
  · rename_i heq
    injection heq with h1 _
    exact absurd h1 h
  · rfl

theorem wsMatch_none (c : Nat) (cs : PyStr) (h : c ≠ 10) :
    wsMatch (c :: cs) = none := by
  unfold wsMatch
  split
  · rename_i heq
    injection heq with h1 _
    exact absurd h1 h
  · rfl

theorem nbspMatch_none (c : Nat) (cs : PyStr) (h : c ≠ 38) :
    nbspMatch (c :: cs) = none := by
  unfold nbspMatch
  split
  · rename_i heq
    injection heq with h1 _
    exact absurd h1 h
  · rfl

theorem liMatchAt_none (c : Nat) (cs : PyStr) (h : c ≠ 60) :
    liMatchAt (c :: cs) = none := by
  unfold liMatchAt
  split
  · rename_i heq
    injection heq with h1 _
    exact absurd h1 h
  · rfl

theorem tagPairMatch_none (os cl : PyStr) (w : PyStr → PyStr) (c : Nat)
    (cs : PyStr) (h : c ≠ 60) : tagPairMatch (60 :: os) cl w (c :: cs) = none := by
  simp [tagPairMatch, startsW_cons_false 60 c os cs (Ne.symm h)]

theorem preCodeMatch_none (c : Nat) (cs : PyStr) (h : c ≠ 60) :
    preCodeMatch (c :: cs) = none := by
  simp [preCodeMatch, startsW_cons_false 60 c _ cs (Ne.symm h)]

/-!  Concrete claim theorems settled by evaluation. -/

/-- Claim C1: for a feed export with one entry titled `Hello World`,
published `2024-12-18T19:26:00.000-08:00`, content `<p>Hi <b>there</b></p>`,
the converter writes exactly one file, named `2024-12-18-hello-world.md`,
whose content contains the heading line `# Hello World`, the line
`**Date:** 2024-12-18`, and the body `Hi **there**`. -/
theorem c1_feed_end_to_end :
    extract_blog_entries [helloEntry] =
      [(enc ("2024-12-18-hello-world.md"), helloBody)] ∧
    enc ("# Hello World") ∈ splitNl helloBody ∧
    enc ("**Date:** 2024-12-18") ∈ splitNl helloBody ∧
    hasSub (enc ("Hi **there**")) helloBody = true := by
  decide

/-- Claim C2, evaluated at the failing input: contrary to the claim, a
present `alt` attribute is dropped — `<img src="pic.png" alt="A cat">`
rewrites to `![](pic.png)`, not `![A cat](pic.png)` (see `imgCont` for why
the optional alt group never captures).  The missing-`alt` half of the
claim does hold, and no error is raised in either case. -/
theorem c2_img_alt_dropped :
    html_to_markdown (enc ("<img src=\"pic.png\" alt=\"A cat\">")) = enc ("![](pic.png)") ∧
    html_to_markdown (enc ("<img src=\"pic.png\">")) = enc ("![](pic.png)") := by
  decide

/-- Claim C5, evaluated at the failing input: an image reference whose
target has a recognized image extension comes out with a doubled `!`,
because the second substitution pass re-matches the `[alt](path)` part of
the first pass's output and prepends another `!`.  The link cases of the
claim do hold: a non-image link is untouched and an image link is promoted
(case-insensitively). -/
theorem c5_image_path_double_bang :
    convert_image_paths (enc ("![photo](media/cat.jpg)")) =
      enc ("!![photo](tumblrmedia/cat.jpg)") ∧
    convert_image_paths (enc ("[doc](notes.txt)")) = enc ("[doc](notes.txt)") ∧
    convert_image_paths (enc ("[pic](a/dog.PNG)")) = enc ("![pic](tumblrmedia/dog.PNG)") := by
  decide

/-- Claim C6: `clean_filename` maps the title `My "Crazy" Title!!!` to
`my-crazy-title` — embedded tags removed, characters outside the word,
whitespace and hyphen classes deleted, whitespace and hyphen runs collapsed
to single hyphens, edge hyphens stripped, lowercased. -/
theorem c6_clean_filename_example :
    clean_filename (enc ("My \"Crazy\" Title!!!")) = enc ("my-crazy-title") := by
  decide

/-- Claim C3, counterexample: `html_to_markdown "a&nbsp;b"` yields the
non-breaking-space character U+00A0 (160), not the ASCII space U+0020 the
claim demands — entity decoding produces U+00A0 and the later literal
`&nbsp;` replacement no longer fires. -/
theorem c3_nbsp_counterexample :
    html_to_markdown (enc ("a&nbsp;b")) = enc ("a") ++ [160] ++ enc ("b") ∧
    enc ("a") ++ [160] ++ enc ("b") ≠ enc ("a b") := by
  decide

/-- Claim C4, counterexample: an entry whose published date is present but
unparseable is not skipped — a file is written, with the raw date string
used verbatim in the filename and the date line. -/
theorem c4_unparseable_date_counterexample :
    extract_blog_entries [badDateEntry] =
      [(enc ("not-a-date-t.md"), enc ("# T\n\n**Date:** not-a-date\n\nx\n"))] := by
  decide

/-- Claim C9, counterexample: the run summary carries no skipped or failed
counts — a run over two records (one processed, one skipped for a missing
date) prints exactly the same summary as a run over the one processed
record, so no three counts summing to the number of records observed are
reported. -/
theorem c9_summary_counterexample :
    summaryLine [dupEntryA, noDateEntry] = summaryLine [dupEntryA] := by
  decide

/-- Claim C3, amended: for inputs whose surrounding characters are plain
text (no `<`, no other `&`, no newline), `html_to_markdown` converts the
`&nbsp;` entity exactly once, to the single non-breaking-space character
U+00A0 — not to U+0020 — and never double-decodes it: entity decoding
produces U+00A0 and every later pass, including the literal
`&nbsp;`-to-space substitution, leaves it untouched; only the final
`strip()` applies. -/
theorem c3_nbsp_amended (p q : PyStr)
    (hp : ∀ c ∈ p, c ≠ 60 ∧ c ≠ 38 ∧ c ≠ 10)
    (hq : ∀ c ∈ q, c ≠ 60 ∧ c ≠ 38 ∧ c ≠ 10) :
    html_to_markdown (p ++ [38, 110, 98, 115, 112, 59] ++ q) =
      pyStripL (p ++ [160] ++ q) := by
  have hne : p ++ [38, 110, 98, 115, 112, 59] ++ q ≠ [] := by simp
  have hX : ∀ c ∈ p ++ [160] ++ q, c ≠ 60 ∧ c ≠ 38 ∧ c ≠ 10 := by
    intro c hc
    rcases List.mem_append.mp hc with h | h
    · rcases List.mem_append.mp h with h | h
      · exact hp c h
      · simp at h
        subst h
        exact ⟨by decide, by decide, by decide⟩
    · exact hq c h
  have hX60 : ∀ c ∈ p ++ [160] ++ q, c ≠ 60 := fun c hc => (hX c hc).1
  have hX38 : ∀ c ∈ p ++ [160] ++ q, c ≠ 38 := fun c hc => (hX c hc).2.1
  have hX10 : ∀ c ∈ p ++ [160] ++ q, c ≠ 10 := fun c hc => (hX c hc).2.2
  have h1 : runSub entMatch (p ++ [38, 110, 98, 115, 112, 59] ++ q) = p ++ [160] ++ q := by
    rw [runSub_eq]
    rw [List.append_assoc p [38, 110, 98, 115, 112, 59] q,
      List.append_assoc p [160] q]
    rw [scanSub_append entMatch 38 entMatch_none p (fun c hc => (hp c hc).2.1)]
    congr 1
    have hf : (p ++ ([38, 110, 98, 115, 112, 59] ++ q)).length - p.length = 5 + q.length + 1 := by
      simp only [List.length_append, List.length_cons, List.length_nil]
      omega
    rw [hf]
    show scanSub entMatch (Nat.succ (5 + q.length))
      (38 :: 110 :: 98 :: 115 :: 112 :: 59 :: q) = 160 :: q
    rw [scanSub_cons_some entMatch (5 + q.length) 38
      (110 :: 98 :: 115 :: 112 :: 59 :: q) [160] q rfl]
    rw [scanSub_id entMatch 38 entMatch_none _ q (fun c hc => (hq c hc).2.1)]
    rfl
  have h2 : runSub imgMatch (p ++ [160] ++ q) = p ++ [160] ++ q :=
    scanSub_id imgMatch 60 imgMatch_none _ _ hX60
  have h3 : runSub linkMatch (p ++ [160] ++ q) = p ++ [160] ++ q :=
    scanSub_id linkMatch 60 linkMatch_none _ _ hX60
  have h4 : runSub hMatch (p ++ [160] ++ q) = p ++ [160] ++ q :=
    scanSub_id hMatch 60 hMatch_none _ _ hX60
  have h5 : runSub (tagPairMatch [60, 112] [60, 47, 112, 62] (fun i => i ++ [10, 10]))
      (p ++ [160] ++ q) = p ++ [160] ++ q :=
    scanSub_id _ 60 (fun c cs h => tagPairMatch_none _ _ _ c cs h) _ _ hX60
  have h6 : runSub brMatch (p ++ [160] ++ q) = p ++ [160] ++ q :=
    scanSub_id brMatch 60 brMatch_none _ _ hX60
  have h7 : runSub (tagPairMatch [60, 115, 116, 114, 111, 110, 103]
      [60, 47, 115, 116, 114, 111, 110, 103, 62] (fun i => [42, 42] ++ i ++ [42, 42]))
      (p ++ [160] ++ q) = p ++ [160] ++ q :=
    scanSub_id _ 60 (fun c cs h => tagPairMatch_none _ _ _ c cs h) _ _ hX60
  have h8 : runSub (tagPairMatch [60, 98] [60, 47, 98, 62] (fun i => [42, 42] ++ i ++ [42, 42]))
      (p ++ [160] ++ q) = p ++ [160] ++ q :=
    scanSub_id _ 60 (fun c cs h => tagPairMatch_none _ _ _ c cs h) _ _ hX60
  have h9 : runSub (tagPairMatch [60, 101, 109] [60, 47, 101, 109, 62] (fun i => [42] ++ i ++ [42]))
      (p ++ [160] ++ q) = p ++ [160] ++ q :=
    scanSub_id _ 60 (fun c cs h => tagPairMatch_none _ _ _ c cs h) _ _ hX60
  have h10 : runSub (tagPairMatch [60, 105] [60, 47, 105, 62] (fun i => [42] ++ i ++ [42]))
      (p ++ [160] ++ q) = p ++ [160] ++ q :=
    scanSub_id _ 60 (fun c cs h => tagPairMatch_none _ _ _ c cs h) _ _ hX60
  have h11 : runSub (tagPairMatch [60, 117, 108] [60, 47, 117, 108, 62]
      (fun i => convert_list i [117, 108])) (p ++ [160] ++ q) = p ++ [160] ++ q :=
    scanSub_id _ 60 (fun c cs h => tagPairMatch_none _ _ _ c cs h) _ _ hX60
  have h12 : runSub (tagPairMatch [60, 111, 108] [60, 47, 111, 108, 62]
      (fun i => convert_list i [111, 108])) (p ++ [160] ++ q) = p ++ [160] ++ q :=
    scanSub_id _ 60 (fun c cs h => tagPairMatch_none _ _ _ c cs h) _ _ hX60
  have h13 : runSub (tagPairMatch [60, 98, 108, 111, 99, 107, 113, 117, 111, 116, 101]
      [60, 47, 98, 108, 111, 99, 107, 113, 117, 111, 116, 101, 62]
      (fun i => [62, 32] ++ nlQuote (pyStripL i))) (p ++ [160] ++ q) = p ++ [160] ++ q :=
    scanSub_id _ 60 (fun c cs h => tagPairMatch_none _ _ _ c cs h) _ _ hX60
  have h14 : runSub preCodeMatch (p ++ [160] ++ q) = p ++ [160] ++ q :=
    scanSub_id preCodeMatch 60 preCodeMatch_none _ _ hX60
  have h15 : runSub (tagPairMatch [60, 99, 111, 100, 101] [60, 47, 99, 111, 100, 101, 62]
      (fun i => [96] ++ i ++ [96])) (p ++ [160] ++ q) = p ++ [160] ++ q :=
    scanSub_id _ 60 (fun c cs h => tagPairMatch_none _ _ _ c cs h) _ _ hX60
  have h16 : runSub tagMatch (p ++ [160] ++ q) = p ++ [160] ++ q :=
    scanSub_id tagMatch 60 tagMatch_none _ _ hX60
  have h17 : runSub wsMatch (p ++ [160] ++ q) = p ++ [160] ++ q :=
    scanSub_id wsMatch 10 wsMatch_none _ _ hX10
  have h18 : runSub nbspMatch (p ++ [160] ++ q) = p ++ [160] ++ q :=
    scanSub_id nbspMatch 38 nbspMatch_none _ _ hX38
  unfold html_to_markdown
  rw [if_neg hne]
  simp only [h1, h2, h3, h4, h5, h6, h7, h8, h9, h10, h11, h12, h13, h14, h15, h16, h17, h18]

/-- Claim C3 witness: the amended statement applied at `p = "a"`,
`q = "b"`. -/
theorem c3_nbsp_amended_witness :
    (∀ c ∈ enc ("a"), c ≠ 60 ∧ c ≠ 38 ∧ c ≠ 10) ∧
    (∀ c ∈ enc ("b"), c ≠ 60 ∧ c ≠ 38 ∧ c ≠ 10) ∧
    html_to_markdown (enc ("a") ++ [38, 110, 98, 115, 112, 59] ++ enc ("b")) =
      pyStripL (enc ("a") ++ [160] ++ enc ("b")) :=
  ⟨by decide, by decide, c3_nbsp_amended (enc ("a")) (enc ("b")) (by decide) (by decide)⟩

/-- When parsing fails, `format_date` returns the input unchanged (the
`except` branch). -/
theorem format_date_of_parse_none (pub : PyStr)
    (h : isoParse (pyReplaceZ pub) = none) : format_date pub = pub := by
  simp [format_date, h]

/-- Claim C4, amended: an absent published date causes the entry to be
skipped entirely (no output, no error); an unparseable published date does
not cause a skip — the entry is processed and the raw date string is used
verbatim in the filename and the date line. -/
theorem c4_date_amended :
    (∀ e : BlogEntry, e.published = none → processEntry e = none) ∧
    (∀ (e : BlogEntry) (pub : PyStr) (inner : Option PyStr),
      isSettingsB e = false → e.published = some pub →
      isoParse (pyReplaceZ pub) = none → e.content = some inner →
      processEntry e = some
        ((if e.draftText = some (enc ("yes")) then enc ("draft-") else []) ++ pub ++ [45] ++
          clean_filename (e.title.getD (enc ("Untitled"))) ++ enc (".md"),
         enc ("# ") ++ e.title.getD (enc ("Untitled")) ++ [10, 10] ++ enc ("**Date:** ") ++
          pub ++ [10] ++
          (if e.draftText = some (enc ("yes")) then enc ("**Status:** Draft") ++ [10] else []) ++
          [10] ++ html_to_markdown (inner.getD []) ++ [10])) := by
  constructor
  · intro e h
    simp [processEntry, h]
  · intro e pub inner hs hpub hiso hc
    simp [processEntry, hs, hpub, hc, format_date_of_parse_none pub hiso]

/-- Claim C4 witness: the amended statement at the concrete entries — the
entry with no published element yields no file; the entry with the
unparseable date `not-a-date` yields the file `not-a-date-t.md`. -/
theorem c4_date_amended_witness :
    processEntry noDateEntry = none ∧
    processEntry badDateEntry =
      some (enc ("not-a-date-t.md"), enc ("# T\n\n**Date:** not-a-date\n\nx\n")) := by
  constructor
  · exact c4_date_amended.1 noDateEntry rfl
  · have h := c4_date_amended.2 badDateEntry (enc ("not-a-date")) (some (enc ("x")))
      (by decide) rfl (by decide) rfl
    rw [h]
    decide

/-- Claim C8: when two entries synthesize the same filename, both writes
happen (no collision detection, no error — `processEntry` is total), and
under the overwrite semantics of `open(..., 'w')` the file ends up holding
the second entry's output. -/
theorem c8_same_filename_overwrite (e1 e2 : BlogEntry) (n b1 b2 : PyStr)
    (h1 : processEntry e1 = some (n, b1)) (h2 : processEntry e2 = some (n, b2)) :
    extract_blog_entries [e1, e2] = [(n, b1), (n, b2)] ∧
    finalFile (extract_blog_entries [e1, e2]) n = some b2 := by
  have hx : extract_blog_entries [e1, e2] = [(n, b1), (n, b2)] := by
    simp [extract_blog_entries, h1, h2]
  refine ⟨hx, ?_⟩
  rw [hx]
  simp [finalFile]

/-- Claim C8 witness: two concrete entries with the same title and date but
different contents — the run writes both, and the file holds the second
entry's output. -/
theorem c8_same_filename_overwrite_witness :
    processEntry dupEntryA =
      some (enc ("2024-01-02-same.md"), enc ("# Same\n\n**Date:** 2024-01-02\n\none\n")) ∧
    processEntry dupEntryB =
      some (enc ("2024-01-02-same.md"), enc ("# Same\n\n**Date:** 2024-01-02\n\ntwo\n")) ∧
    extract_blog_entries [dupEntryA, dupEntryB] =
      [(enc ("2024-01-02-same.md"), enc ("# Same\n\n**Date:** 2024-01-02\n\none\n")),
       (enc ("2024-01-02-same.md"), enc ("# Same\n\n**Date:** 2024-01-02\n\ntwo\n"))] ∧
    finalFile (extract_blog_entries [dupEntryA, dupEntryB]) (enc ("2024-01-02-same.md")) =
      some (enc ("# Same\n\n**Date:** 2024-01-02\n\ntwo\n")) := by
  have h := c8_same_filename_overwrite dupEntryA dupEntryB (enc ("2024-01-02-same.md"))
    (enc ("# Same\n\n**Date:** 2024-01-02\n\none\n"))
    (enc ("# Same\n\n**Date:** 2024-01-02\n\ntwo\n")) (by decide) (by decide)
  exact ⟨by decide, by decide, h.1, h.2⟩

/-- The loop counter equals the number of files written, for any starting
value of the accumulator. -/
theorem foldl_count_filterMap (es : List BlogEntry) :
    ∀ n : Nat,
      es.foldl (fun n e => match processEntry e with | some _ => n + 1 | none => n) n =
        n + (es.filterMap processEntry).length := by
  induction es with
  | nil => intro n; simp
  | cons e es ih =>
    intro n
    cases h : processEntry e with
    | none =>
      simp only [List.foldl_cons, h, List.filterMap_cons]
      exact ih n
    | some w =>
      simp only [List.foldl_cons, h, List.filterMap_cons]
      rw [ih (n + 1)]
      simp only [List.length_cons]
      omega

/-- Claim C9, amended: the run summary reports a single count — the number
of entries processed, which equals the number of files written; skipped
records are not counted and failures are not tracked. -/
theorem c9_summary_amended (es : List BlogEntry) :
    summaryLine es =
      [10] ++ enc ("Processed ") ++ natDigits (extract_blog_entries es).length ++
        enc (" blog entries.") := by
  unfold summaryLine entriesProcessedCount extract_blog_entries
  rw [foldl_count_filterMap es 0]
  rw [Nat.zero_add]

/-- The lazy close search fires exactly at the boundary when the preceding
text cannot contain the opening character of the closing literal. -/
theorem splitUntil_litTest_boundary (lt' : PyStr) :
    ∀ (pre rest : PyStr), (∀ c ∈ pre, c ≠ 60) →
      splitUntilM (litTest (60 :: lt')) (pre ++ 60 :: (lt' ++ rest)) = some (pre, rest) := by
  intro pre
  induction pre with
  | nil =>
    intro rest _
    rw [List.nil_append]
    have h1 : litTest (60 :: lt') (60 :: (lt' ++ rest)) = some rest := by
      unfold litTest
      rw [show (60 : Nat) :: (lt' ++ rest) = (60 :: lt') ++ rest from rfl]
      rw [startsW_self_append]
      simp [List.drop_left]
    simp [splitUntilM, h1]
  | cons c pre ih =>
    intro rest hpre
    have hc : c ≠ 60 := hpre c (List.mem_cons_self c pre)
    have h1 : litTest (60 :: lt') (c :: (pre ++ 60 :: (lt' ++ rest))) = none := by
      unfold litTest
      rw [startsW_cons_false 60 c _ _ (Ne.symm hc)]
      simp
    rw [List.cons_append]
    simp [splitUntilM, h1, ih rest (fun x hx => hpre x (List.mem_cons_of_mem _ hx))]

/-- `findall` over a body built from `<li>item</li>` blocks recovers
exactly the items, in order, when the items contain no `<`. -/
theorem liScan_mkLiBody :
    ∀ (items : List PyStr) (f : Nat),
      (∀ it ∈ items, ∀ c ∈ it, c ≠ 60) → (mkLiBody items).length ≤ f →
      liScan f (mkLiBody items) = items := by
  intro items
  induction items with
  | nil =>
    intro f _ _
    cases f <;> simp [mkLiBody, liScan]
  | cons it items ih =>
    intro f h hf
    have hit : ∀ c ∈ it, c ≠ 60 := h it (List.mem_cons_self it items)
    cases f with
    | zero =>
      exfalso
      simp [mkLiBody] at hf
    | succ f =>
      have hli : liMatchAt (60 :: 108 :: 105 :: 62 ::
          (it ++ 60 :: ([47, 108, 105, 62] ++ mkLiBody items))) =
          some (it, mkLiBody items) := by
        rw [show ∀ t : PyStr, liMatchAt (60 :: 108 :: 105 :: 62 :: t) =
          splitUntilM (litTest [60, 47, 108, 105, 62]) t from fun t => rfl]
        exact splitUntil_litTest_boundary [47, 108, 105, 62] it (mkLiBody items) hit
      have hrest : (mkLiBody items).length ≤ f := by
        rw [show mkLiBody (it :: items) =
          60 :: 108 :: 105 :: 62 :: (it ++ 60 :: ([47, 108, 105, 62] ++ mkLiBody items))
          from rfl] at hf
        simp only [List.length_cons, List.length_append] at hf
        omega
      rw [show mkLiBody (it :: items) =
        60 :: 108 :: 105 :: 62 :: (it ++ 60 :: ([47, 108, 105, 62] ++ mkLiBody items))
        from rfl]
      simp only [liScan, hli]
      rw [ih f (fun x hx => h x (List.mem_cons_of_mem _ hx)) hrest]

/-- The enumerate loop of `convert_list` for an ordered list, as a
position-indexed map: 1-based sequential numbering from any start. -/
theorem convertItems_ol :
    ∀ (items : List PyStr), (∀ it ∈ items, ∀ c ∈ it, c ≠ 60) →
      ∀ i, convertItems [111, 108] i items =
        items.mapIdx (fun j it => natDigits (i + j + 1) ++ [46, 32] ++ pyStripL it) := by
  intro items
  induction items with
  | nil => intro _ i; simp [convertItems]
  | cons it items ih =>
    intro h i
    have hit : runSub tagMatch it = it :=
      scanSub_id tagMatch 60 tagMatch_none _ _ (h it (List.mem_cons_self it items))
    have ih' := ih (fun x hx => h x (List.mem_cons_of_mem _ hx)) (i + 1)
    have hfun : (fun (j : Nat) (it2 : PyStr) =>
        natDigits (i + 1 + j + 1) ++ [46, 32] ++ pyStripL it2) =
        (fun (j : Nat) (it2 : PyStr) =>
          natDigits (i + (j + 1) + 1) ++ [46, 32] ++ pyStripL it2) := by
      funext j it2
      rw [show i + 1 + j + 1 = i + (j + 1) + 1 from by omega]
    simp only [convertItems, List.mapIdx_cons, hit, Nat.add_zero,
      if_neg (show ¬([111, 108] : PyStr) = [117, 108] from by decide)]
    rw [ih', hfun]

/-- The enumerate loop of `convert_list` for an unordered list: a plain
map, preserving item order. -/
theorem convertItems_ul :
    ∀ (items : List PyStr), (∀ it ∈ items, ∀ c ∈ it, c ≠ 60) →
      ∀ i, convertItems [117, 108] i items =
        items.map (fun it => [45, 32] ++ pyStripL it) := by
  intro items
  induction items with
  | nil => intro _ i; simp [convertItems]
  | cons it items ih =>
    intro h i
    have hit : runSub tagMatch it = it :=
      scanSub_id tagMatch 60 tagMatch_none _ _ (h it (List.mem_cons_self it items))
    have ih' := ih (fun x hx => h x (List.mem_cons_of_mem _ hx)) (i + 1)
    simp [convertItems, hit, ih']

/-- Claim C7: for a `<ol>` body with the given `<li>` items (tag-free
inside), `convert_list` emits one line per item, prefixed `1.`, `2.`, ...,
`n.` in item order — 1-based sequential numbering — and for a `<ul>` body
it emits one `- `-prefixed line per item, preserving item order. -/
theorem c7_list_numbering (items : List PyStr)
    (h : ∀ it ∈ items, ∀ c ∈ it, c ≠ 60) :
    convert_list (mkLiBody items) [111, 108] =
      [10] ++ List.intercalate [10]
        (items.mapIdx (fun j it => natDigits (j + 1) ++ [46, 32] ++ pyStripL it)) ++ [10] ∧
    convert_list (mkLiBody items) [117, 108] =
      [10] ++ List.intercalate [10]
        (items.map (fun it => [45, 32] ++ pyStripL it)) ++ [10] := by
  have hfind : liFindAll (mkLiBody items) = items :=
    liScan_mkLiBody items _ h (le_refl _)
  have hfun0 : (fun (j : Nat) (it2 : PyStr) =>
      natDigits (0 + j + 1) ++ [46, 32] ++ pyStripL it2) =
      (fun (j : Nat) (it2 : PyStr) => natDigits (j + 1) ++ [46, 32] ++ pyStripL it2) := by
    funext j it2
    rw [Nat.zero_add]
  constructor
  · unfold convert_list liFindAll at *
    rw [hfind, convertItems_ol items h 0, hfun0]
  · unfold convert_list liFindAll at *
    rw [hfind, convertItems_ul items h 0]

/-- Claim C7 witness: the statement at the three items `a`, `b`, `c`. -/
theorem c7_list_numbering_witness :
    (∀ it ∈ [enc ("a"), enc ("b"), enc ("c")], ∀ c ∈ it, c ≠ 60) ∧
    convert_list (mkLiBody [enc ("a"), enc ("b"), enc ("c")]) [111, 108] =
      [10] ++ List.intercalate [10]
        ([enc ("a"), enc ("b"), enc ("c")].mapIdx
          (fun j it => natDigits (j + 1) ++ [46, 32] ++ pyStripL it)) ++ [10] ∧
    convert_list (mkLiBody [enc ("a"), enc ("b"), enc ("c")]) [117, 108] =
      [10] ++ List.intercalate [10]
        ([enc ("a"), enc ("b"), enc ("c")].map (fun it => [45, 32] ++ pyStripL it)) ++ [10] :=
  ⟨by decide, (c7_list_numbering [enc ("a"), enc ("b"), enc ("c")] (by decide)).1,
    (c7_list_numbering [enc ("a"), enc ("b"), enc ("c")] (by decide)).2⟩

/-!  Character-class facts used by the idempotence development. -/

/-- Explicit description of `pyLower`. -/
theorem pyLower_spec (c : Nat) :
    (65 ≤ c ∧ c ≤ 90 ∧ pyLower c = c + 32) ∨ (¬(65 ≤ c ∧ c ≤ 90) ∧ pyLower c = c) := by
  unfold pyLower
  by_cases h : 65 ≤ c ∧ c ≤ 90
  · exact Or.inl ⟨h.1, h.2, if_pos h⟩
  · exact Or.inr ⟨h, if_neg h⟩

/-- A word character is not whitespace. -/
theorem word_not_space (c : Nat) (h : pyWordB c = true) : pySpaceB c = false := by
  simp only [pyWordB, decide_eq_true_eq] at h
  simp only [pySpaceB, decide_eq_false_iff_not]
  omega

/-- A word character is neither a hyphen nor a `<`. -/
theorem word_ne (c : Nat) (h : pyWordB c = true) : c ≠ 45 ∧ c ≠ 60 := by
  simp only [pyWordB, decide_eq_true_eq] at h
  omega

/-- Lowercasing a word character yields a lowercase-stable word character. -/
theorem pyLower_word (c : Nat) (h : pyWordB c = true) :
    pyWordB (pyLower c) = true ∧ pyLower (pyLower c) = pyLower c := by
  simp only [pyWordB, decide_eq_true_eq] at h ⊢
  rcases pyLower_spec c with ⟨h1, h2, h3⟩ | ⟨h1, h3⟩
  · rw [h3]
    constructor
    · omega
    · rcases pyLower_spec (c + 32) with ⟨k1, k2, _⟩ | ⟨_, k3⟩
      · omega
      · rw [k3]
  · rw [h3]
    exact ⟨h, by rw [h3]⟩

/-- Only a hyphen lowercases to a hyphen. -/
theorem pyLower_eq45 (c : Nat) (h : pyLower c = 45) : c = 45 := by
  rcases pyLower_spec c with ⟨h1, h2, h3⟩ | ⟨_, h3⟩
  · rw [h3] at h; omega
  · rw [h3] at h; exact h

/-- The hyphen/whitespace class fails exactly off hyphens and whitespace. -/
theorem hsB_false_iff (c : Nat) : hsB c = false ↔ (c ≠ 45 ∧ pySpaceB c = false) := by
  simp [hsB]

/-- The collapse matcher only fires on hyphen/whitespace. -/
theorem hyphMatch_none_of (c : Nat) (cs : PyStr) (h : hsB c = false) :
    hyphMatch (c :: cs) = none := by
  simp [hyphMatch, h]

/-- A kept character that is neither hyphen nor whitespace is a word
character. -/
theorem keep_word (c : Nat) (hk : (pyWordB c || pySpaceB c || (c == 45)) = true)
    (hh : hsB c = false) : pyWordB c = true := by
  rcases (hsB_false_iff c).mp hh with ⟨h45, hsp⟩
  have h45b : (c == 45) = false := by simp [h45]
  simpa [hsp, h45b] using hk

/-- Head of the collapse output when the first character does not fire. -/
theorem collapse_head (f : Nat) (c : Nat) (cs : PyStr) (h : hsB c = false)
    (hf : 1 ≤ f) : (scanSub hyphMatch f (c :: cs)).head? = some c := by
  cases f with
  | zero => omega
  | succ f => simp [scanSub, hyphMatch_none_of c cs h]

/-- Output characters of the collapse pass are pass-through characters
(outside the hyphen/whitespace class) or hyphens, and no two adjacent
output characters are both hyphens. -/
theorem collapse_props (f : Nat) : ∀ l : PyStr, l.length ≤ f →
    (∀ x ∈ scanSub hyphMatch f l, (x ∈ l ∧ hsB x = false) ∨ x = 45) ∧
    List.Chain' noHH (scanSub hyphMatch f l) := by
  induction f with
  | zero =>
    intro l hl
    have hnil : l = [] := List.length_eq_zero.mp (Nat.le_zero.mp hl)
    subst hnil
    simp [scanSub]
  | succ f ih =>
    intro l hl
    cases l with
    | nil => simp [scanSub]
    | cons c cs =>
      have hlen : cs.length ≤ f := by simp at hl; omega
      by_cases hc : hsB c = true
      · have heq : scanSub hyphMatch (f + 1) (c :: cs) =
            45 :: scanSub hyphMatch f (cs.dropWhile hsB) := by
          simp [scanSub, hyphMatch, hc]
        have hdlen : (cs.dropWhile hsB).length ≤ f :=
          le_trans (List.dropWhile_sublist _).length_le hlen
        obtain ⟨hmem, hch⟩ := ih (cs.dropWhile hsB) hdlen
        rw [heq]
        constructor
        · intro x hx
          rcases List.mem_cons.mp hx with rfl | hx
          · exact Or.inr rfl
          · rcases hmem x hx with ⟨hin, hns⟩ | h45
            · exact Or.inl ⟨List.mem_cons_of_mem c ((List.dropWhile_sublist _).subset hin), hns⟩
            · exact Or.inr h45
        · rw [List.chain'_cons']
          refine ⟨?_, hch⟩
          intro y hy
          cases hrest : cs.dropWhile hsB with
          | nil =>
            rw [hrest] at hy
            simp [scanSub] at hy
          | cons c' cs' =>
            have hc' : hsB c' = false := by
              have h0 := List.head?_dropWhile_not hsB cs
              rw [hrest] at h0
              exact h0
            have hf1 : 1 ≤ f := by
              rw [hrest] at hdlen
              simp at hdlen
              omega
            rw [hrest, collapse_head f c' cs' hc' hf1] at hy
            have hyc : c' = y := by simpa using hy
            intro hcon
            exact ((hsB_false_iff c').mp hc').1 (hyc.trans hcon.2)
      · have hcf : hsB c = false := by simpa using hc
        have heq : scanSub hyphMatch (f + 1) (c :: cs) = c :: scanSub hyphMatch f cs := by
          simp [scanSub, hyphMatch_none_of c cs hcf]
        obtain ⟨hmem, hch⟩ := ih cs hlen
        rw [heq]
        constructor
        · intro x hx
          rcases List.mem_cons.mp hx with rfl | hx
          · exact Or.inl ⟨List.mem_cons_self _ _, hcf⟩
          · rcases hmem x hx with ⟨hin, hns⟩ | h45
            · exact Or.inl ⟨List.mem_cons_of_mem c hin, hns⟩
            · exact Or.inr h45
        · rw [List.chain'_cons']
          refine ⟨?_, hch⟩
          intro y hy
          intro hcon
          exact ((hsB_false_iff c).mp hcf).1 hcon.1

/-- The collapse pass is the identity on whitespace-free inputs with no two
adjacent hyphens. -/
theorem collapse_id (f : Nat) : ∀ l : PyStr, l.length ≤ f →
    (∀ c ∈ l, pySpaceB c = false) → List.Chain' noHH l →
    scanSub hyphMatch f l = l := by
  induction f with
  | zero =>
    intro l hl _ _
    have hnil : l = [] := List.length_eq_zero.mp (Nat.le_zero.mp hl)
    subst hnil
    simp [scanSub]
  | succ f ih =>
    intro l hl hsp hch
    cases l with
    | nil => simp [scanSub]
    | cons c cs =>
      have hlen : cs.length ≤ f := by simp at hl; omega
      have ihcs := ih cs hlen (fun x hx => hsp x (List.mem_cons_of_mem _ hx)) hch.tail
      by_cases hc : c = 45
      · subst hc
        have hfire : hyphMatch (45 :: cs) = some ([45], cs.dropWhile hsB) := by
          simp [hyphMatch, hsB]
        have hdw : cs.dropWhile hsB = cs := by
          cases cs with
          | nil => simp
          | cons c' cs' =>
            have hy := (List.chain'_cons'.mp hch).1 c' rfl
            have h45 : c' ≠ 45 := fun h' => hy ⟨rfl, h'⟩
            have hspc' : pySpaceB c' = false :=
              hsp c' (List.mem_cons_of_mem _ (List.mem_cons_self _ _))
            rw [List.dropWhile_cons_of_neg]
            simp [hsB, h45, hspc']
        simp only [scanSub, hfire, hdw]
        rw [ihcs]
        rfl
      · have hcf : hsB c = false := by
          simp [hsB, hc, hsp c (List.mem_cons_self _ _)]
        simp only [scanSub, hyphMatch_none_of c cs hcf]
        rw [ihcs]

/-- Dropping a prefix preserves the adjacency chain. -/
theorem chain'_dropWhile (R : Nat → Nat → Prop) (p : Nat → Bool) :
    ∀ l : PyStr, List.Chain' R l → List.Chain' R (l.dropWhile p) := by
  intro l
  induction l with
  | nil => intro h; simp
  | cons c cs ih =>
    intro h
    by_cases hp : p c = true
    · rw [List.dropWhile_cons_of_pos hp]
      exact ih h.tail
    · rw [List.dropWhile_cons_of_neg (by simpa using hp)]
      exact h

/-- The no-adjacent-hyphens chain is symmetric, hence stable under
reversal. -/
theorem chain'_noHH_reverse (l : PyStr) (h : List.Chain' noHH l) :
    List.Chain' noHH l.reverse := by
  rw [List.chain'_reverse]
  exact h.imp (fun a b hab hcon => hab ⟨hcon.2, hcon.1⟩)

/-- The head surviving a `dropWhile` fails the predicate. -/
theorem head?_dropWhile_false (p : Nat → Bool) (l : PyStr) (c : Nat)
    (h : (l.dropWhile p).head? = some c) : p c = false := by
  have h0 := List.head?_dropWhile_not p l
  rw [h] at h0
  exact h0

/-- A nonempty `dropWhile` keeps the last element. -/
theorem getLast?_dropWhile (p : Nat → Bool) :
    ∀ l : PyStr, l.dropWhile p ≠ [] → (l.dropWhile p).getLast? = l.getLast? := by
  intro l
  induction l with
  | nil => intro h; simp at h
  | cons c cs ih =>
    intro h
    by_cases hp : p c = true
    · rw [List.dropWhile_cons_of_pos hp] at h ⊢
      rw [ih h]
      cases cs with
      | nil => simp at h
      | cons d ds => rw [List.getLast?_cons_cons]
    · rw [List.dropWhile_cons_of_neg (by simpa using hp)]

/-- Stripping edge hyphens keeps only original characters. -/
theorem pyStripHy_subset (l : PyStr) : ∀ x ∈ pyStripHy l, x ∈ l := by
  intro x hx
  unfold pyStripHy at hx
  rw [List.mem_reverse] at hx
  have hx2 := (List.dropWhile_sublist _).subset hx
  rw [List.mem_reverse] at hx2
  exact (List.dropWhile_sublist _).subset hx2

/-- Stripping edge hyphens preserves the adjacency chain. -/
theorem pyStripHy_chain (l : PyStr) (h : List.Chain' noHH l) :
    List.Chain' noHH (pyStripHy l) := by
  unfold pyStripHy
  exact chain'_noHH_reverse _ (chain'_dropWhile _ _ _ (chain'_noHH_reverse _
    (chain'_dropWhile _ _ _ h)))

/-- After stripping, the first character is not a hyphen. -/
theorem pyStripHy_head (l : PyStr) (c : Nat)
    (h : (pyStripHy l).head? = some c) : c ≠ 45 := by
  unfold pyStripHy at h
  rw [List.head?_reverse] at h
  have hne : (l.dropWhile (· == 45)).reverse.dropWhile (· == 45) ≠ [] := by
    intro he
    rw [he] at h
    simp at h
  rw [getLast?_dropWhile _ _ hne, List.getLast?_reverse] at h
  have hp := head?_dropWhile_false (· == 45) l c h
  simpa using hp

/-- After stripping, the last character is not a hyphen. -/
theorem pyStripHy_last (l : PyStr) (c : Nat)
    (h : (pyStripHy l).getLast? = some c) : c ≠ 45 := by
  unfold pyStripHy at h
  rw [List.getLast?_reverse] at h
  have hp := head?_dropWhile_false (· == 45) (l.dropWhile (· == 45)).reverse c h
  simpa using hp

/-- Stripping edge hyphens is the identity when neither end is a hyphen. -/
theorem pyStripHy_eq_self (l : PyStr)
    (hh : ∀ c, l.head? = some c → c ≠ 45)
    (hl : ∀ c, l.getLast? = some c → c ≠ 45) :
    pyStripHy l = l := by
  have h1 : l.dropWhile (· == 45) = l := by
    cases l with
    | nil => simp
    | cons c cs =>
      have hc45 : c ≠ 45 := hh c rfl
      rw [List.dropWhile_cons_of_neg (by simpa using hc45)]
  unfold pyStripHy
  rw [h1]
  have h2 : l.reverse.dropWhile (· == 45) = l.reverse := by
    cases hrev : l.reverse with
    | nil => simp
    | cons c cs =>
      have hc : l.getLast? = some c := by
        rw [← List.head?_reverse, hrev]
        rfl
      have hc45 : c ≠ 45 := hl c hc
      rw [List.dropWhile_cons_of_neg (by simpa using hc45)]
  rw [h2, List.reverse_reverse]

/-- Lowercasing preserves the no-adjacent-hyphens chain. -/
theorem map_pyLower_chain (l : PyStr) (h : List.Chain' noHH l) :
    List.Chain' noHH (l.map pyLower) := by
  rw [List.chain'_map]
  exact h.imp (fun a b hab hcon => hab ⟨pyLower_eq45 a hcon.1, pyLower_eq45 b hcon.2⟩)

/-- Off U+0130, the per-character lowercase mapping is the single-character
ASCII mapping. -/
theorem pyLowerC_of_ne (c : Nat) (h : c ≠ 304) : pyLowerC c = [pyLower c] := by
  simp [pyLowerC, h]

/-- On strings without U+0130, `str.lower` is the character-wise ASCII
mapping. -/
theorem pyLowerS_eq_map : ∀ l : PyStr, (∀ c ∈ l, c ≠ 304) → pyLowerS l = l.map pyLower := by
  intro l
  induction l with
  | nil => intro _; rfl
  | cons c cs ih =>
    intro h
    simp only [pyLowerS, List.map_cons, pyLowerC_of_ne c (h c (List.mem_cons_self c cs)),
      ih (fun x hx => h x (List.mem_cons_of_mem _ hx)), List.singleton_append]

/-- `str.lower` fixes a string all of whose characters are fixed by the
per-character mapping. -/
theorem pyLowerS_id : ∀ l : PyStr, (∀ c ∈ l, pyLowerC c = [c]) → pyLowerS l = l := by
  intro l
  induction l with
  | nil => intro _; rfl
  | cons c cs ih =>
    intro h
    simp only [pyLowerS, h c (List.mem_cons_self c cs),
      ih (fun x hx => h x (List.mem_cons_of_mem _ hx)), List.singleton_append]

/-- ASCII characters stay ASCII under the single-character mapping. -/
theorem pyLower_lt128 (c : Nat) (h : c < 128) : pyLower c < 128 := by
  rcases pyLower_spec c with ⟨h1, h2, h3⟩ | ⟨_, h3⟩ <;> omega

/-- A successful generic-tag match deletes the tag: the replacement is
empty and the remainder is part of the input. -/
theorem tagMatch_some_sub (l rep rest : PyStr) (h : tagMatch l = some (rep, rest)) :
    rep = [] ∧ ∀ x ∈ rest, x ∈ l := by
  unfold tagMatch at h
  split at h
  · rename_i c cs
    split at h
    · exact absurd h (by simp)
    · split at h
      · rename_i r heq
        simp only [Option.some.injEq, Prod.mk.injEq] at h
        obtain ⟨h1, h2⟩ := h
        subst h1
        subst h2
        refine ⟨rfl, ?_⟩
        intro x hx
        have hx2 := List.mem_cons_of_mem (62 : Nat) hx
        rw [← heq] at hx2
        exact List.mem_cons_of_mem _ ((List.dropWhile_sublist _).subset hx2)
      · exact absurd h (by simp)
  · exact absurd h (by simp)

/-- Every character of the tag-stripping pass's output comes from its
input. -/
theorem scanSub_tagMatch_subset :
    ∀ (f : Nat) (l : PyStr), ∀ x ∈ scanSub tagMatch f l, x ∈ l := by
  intro f
  induction f with
  | zero =>
    intro l x hx
    cases l with
    | nil => simp [scanSub] at hx
    | cons c cs => simpa [scanSub] using hx
  | succ f ih =>
    intro l x hx
    cases l with
    | nil => simp [scanSub] at hx
    | cons c cs =>
      cases h : tagMatch (c :: cs) with
      | none =>
        simp only [scanSub, h] at hx
        rcases List.mem_cons.mp hx with rfl | hx2
        · exact List.mem_cons_self _ _
        · exact List.mem_cons_of_mem _ (ih cs x hx2)
      | some pr =>
        obtain ⟨rep, rest⟩ := pr
        obtain ⟨hrep, hsub⟩ := tagMatch_some_sub (c :: cs) rep rest h
        subst hrep
        simp only [scanSub, h, List.nil_append] at hx
        exact hsub x (ih rest x hx)

/-- The output of `clean_filename` on an ASCII input is in sanitized form:
lowercase-stable word characters and single hyphens only, with no hyphen
at either end.  The ASCII restriction is necessary: on U+0130 the
lowercase mapping expands and its output contains the combining mark
U+0307, which is not sanitized. -/
theorem clean_filename_sanitized (l : PyStr) (hascii : ∀ c ∈ l, c < 128) :
    Sanitized (clean_filename l) := by
  obtain ⟨hmem3, hch3⟩ := collapse_props
    ((runSub tagMatch l).filter (fun c => pyWordB c || pySpaceB c || c == 45)).length
    ((runSub tagMatch l).filter (fun c => pyWordB c || pySpaceB c || c == 45)) (le_refl _)
  have hm3 : ∀ x ∈ scanSub hyphMatch
      ((runSub tagMatch l).filter (fun c => pyWordB c || pySpaceB c || c == 45)).length
      ((runSub tagMatch l).filter (fun c => pyWordB c || pySpaceB c || c == 45)),
      pyWordB x = true ∨ x = 45 := by
    intro x hx
    rcases hmem3 x hx with ⟨hin, hns⟩ | h45
    · exact Or.inl (keep_word x (List.mem_filter.mp hin).2 hns)
    · exact Or.inr h45
  have h128 : ∀ x ∈ scanSub hyphMatch
      ((runSub tagMatch l).filter (fun c => pyWordB c || pySpaceB c || c == 45)).length
      ((runSub tagMatch l).filter (fun c => pyWordB c || pySpaceB c || c == 45)),
      x < 128 := by
    intro x hx
    rcases hmem3 x hx with ⟨hin, _⟩ | h45
    · exact hascii x (scanSub_tagMatch_subset _ _ x (List.mem_filter.mp hin).1)
    · omega
  have hsne : ∀ c ∈ pyStripHy (scanSub hyphMatch
      ((runSub tagMatch l).filter (fun c => pyWordB c || pySpaceB c || c == 45)).length
      ((runSub tagMatch l).filter (fun c => pyWordB c || pySpaceB c || c == 45))), c ≠ 304 := by
    intro c hc
    have := h128 c (pyStripHy_subset _ c hc)
    omega
  simp only [clean_filename]
  rw [runSub_eq hyphMatch]
  rw [pyLowerS_eq_map _ hsne]
  refine ⟨?_, ?_, ?_, ?_⟩
  · intro c hc
    rcases List.mem_map.mp hc with ⟨x, hxmem, hfx⟩
    subst hfx
    rcases hm3 x (pyStripHy_subset _ x hxmem) with hw | h45
    · have hx128 : x < 128 := h128 x (pyStripHy_subset _ x hxmem)
      have hlw := pyLower_word x hw
      refine Or.inl ⟨hlw.1, ?_⟩
      rw [pyLowerC_of_ne (pyLower x) (by have := pyLower_lt128 x hx128; omega), hlw.2]
    · subst h45
      exact Or.inr (by decide)
  · exact map_pyLower_chain _ (pyStripHy_chain _ hch3)
  · intro c hc
    rw [List.head?_map] at hc
    cases hx : (pyStripHy (scanSub hyphMatch _ _)).head? with
    | none => rw [hx] at hc; simp at hc
    | some x =>
      rw [hx] at hc
      simp at hc
      have hx45 := pyStripHy_head _ x hx
      intro hcon
      rw [← hc] at hcon
      exact hx45 (pyLower_eq45 x hcon)
  · intro c hc
    rw [List.getLast?_map] at hc
    cases hx : (pyStripHy (scanSub hyphMatch _ _)).getLast? with
    | none => rw [hx] at hc; simp at hc
    | some x =>
      rw [hx] at hc
      simp at hc
      have hx45 := pyStripHy_last _ x hx
      intro hcon
      rw [← hc] at hcon
      exact hx45 (pyLower_eq45 x hcon)

/-- Every sanitized string is a fixed point of `clean_filename`. -/
theorem clean_filename_fixed (l : PyStr) (h : Sanitized l) : clean_filename l = l := by
  obtain ⟨hmem, hch, hhead, hlast⟩ := h
  have h60 : ∀ c ∈ l, c ≠ 60 := by
    intro c hc
    rcases hmem c hc with ⟨hw, _⟩ | h45
    · exact (word_ne c hw).2
    · subst h45; decide
  have h1 : runSub tagMatch l = l := scanSub_id tagMatch 60 tagMatch_none _ _ h60
  have hsp : ∀ c ∈ l, pySpaceB c = false := by
    intro c hc
    rcases hmem c hc with ⟨hw, _⟩ | h45
    · exact word_not_space c hw
    · subst h45; decide
  have hkeep : l.filter (fun c => pyWordB c || pySpaceB c || c == 45) = l := by
    rw [List.filter_eq_self]
    intro a ha
    rcases hmem a ha with ⟨hw, _⟩ | h45
    · simp [hw]
    · subst h45; decide
  have h3 : runSub hyphMatch l = l := by
    rw [runSub_eq]
    exact collapse_id l.length l (le_refl _) hsp hch
  have h4 : pyStripHy l = l := pyStripHy_eq_self l hhead hlast
  have h5 : pyLowerS l = l := by
    apply pyLowerS_id
    intro c hc
    rcases hmem c hc with ⟨_, hst⟩ | h45
    · exact hst
    · subst h45; decide
  simp only [clean_filename, h1, hkeep, h3, h4, h5]

/-- Claim C10, counterexample: `clean_filename` is not idempotent on all
strings.  U+0130 (304, LATIN CAPITAL LETTER I WITH DOT ABOVE) is a `\w`
character, so it survives the filter, and lowercasing expands it to `i`
(105) followed by the combining mark U+0307 (775); on a second application
the combining mark is outside `[\w\s-]` and is deleted, so applying
`clean_filename` twice differs from applying it once. -/
theorem c10_idempotence_counterexample :
    clean_filename (clean_filename [304]) ≠ clean_filename [304] ∧
    clean_filename [304] = [105, 775] ∧
    clean_filename (clean_filename [304]) = [105] := by
  decide

/-- Claim C10, amended: `clean_filename` is idempotent on every input
whose characters are ASCII — the domain on which `\w` and `str.lower` act
as the literal classes of the claim — because its output there is in
sanitized form and every sanitized string is a fixed point of
sanitization. -/
theorem c10_clean_filename_idempotent (s : PyStr) (h : ∀ c ∈ s, c < 128) :
    clean_filename (clean_filename s) = clean_filename s :=
  clean_filename_fixed (clean_filename s) (clean_filename_sanitized s h)

/-- Claim C10 witness: the amended statement at the title of the C6
scenario. -/
theorem c10_clean_filename_idempotent_witness :
    (∀ c ∈ enc ("My \"Crazy\" Title!!!"), c < 128) ∧
    clean_filename (clean_filename (enc ("My \"Crazy\" Title!!!"))) =
      clean_filename (enc ("My \"Crazy\" Title!!!")) :=
  ⟨by decide, c10_clean_filename_idempotent (enc ("My \"Crazy\" Title!!!")) (by decide)⟩
